import Mathlib

/-!
Shallow embedding of cron.py, a cron timing emulator.

The program reads a simulated current time (HH:MM) and a list of cron
config lines, each consisting of a minute field, an hour field and a
command; each field is either a concrete integer or the wildcard
marker. For each line it prints the next time the entry would run and
whether that is today or tomorrow.

Python values are modelled as follows: a schedule field (int or the
string marker) becomes the tagged type SField; the Python dicts for the
simulated time and a config line become structures; raising an
exception (a TypeError from comparing an int with a string, or an
IndexError from indexing past the end of a list) becomes an Option
none, or the dedicated constructors of ParseResult in the parser.
-/

/-- A schedule field: the wildcard marker or a concrete integer.
In the Python source these are the string marker and an int; equality
tests between the marker and an int are always false there, which the
tagged representation reproduces. -/
inductive SField where
  | wild : SField
  | conc : Nat → SField
deriving DecidableEq, Repr

/-- The simulated current time, built by Config._parse_sct from argv. -/
structure SimTime where
  hour : Nat
  minute : Nat
deriving DecidableEq, Repr

/-- One parsed config line, as built by Config._parse_stdin_line. -/
structure Entry where
  minute : SField
  hour : SField
  command : String
deriving DecidableEq, Repr

/-- The day a computed run time falls on. -/
inductive Day where
  | today : Day
  | tomorrow : Day
deriving DecidableEq, Repr

/-- Numeric day offset: today is 0, tomorrow is 1. -/
def Day.toNat : Day → Nat
  | Day.today => 0
  | Day.tomorrow => 1

/-- The output of evaluating one entry: resolved hour, minute, day and
the entry command, as printed by Cron._print_runtime. -/
structure RunTimeResult where
  hour : Nat
  minute : Nat
  day : Day
  command : String
deriving DecidableEq, Repr

/-- Cron._run_now: does the entry run right this minute?
False when the hour field is neither the current hour nor the
wildcard; false when the minute field is neither the current minute
nor the wildcard; true otherwise. -/
def run_now (sct : SimTime) (line : Entry) : Bool :=
  if line.hour ≠ SField.conc sct.hour ∧ line.hour ≠ SField.wild then false
  else if line.minute ≠ SField.conc sct.minute ∧ line.minute ≠ SField.wild then false
  else true

/-- Cron._get_next_hour: the next hour the cron will run.
A concrete hour field is returned as is. For a wildcard hour the
current hour is returned when the current minute is strictly below the
entry minute, else the current hour plus one, or 0 at hour 23. When
both the hour and the minute field are wildcards the Python code
compares an int with the wildcard string, raising a TypeError,
modelled as none. -/
def get_next_hour (sct : SimTime) (hour minute : SField) : Option Nat :=
  match hour with
  | SField.conc h => some h
  | SField.wild =>
    match minute with
    | SField.wild => none
    | SField.conc m =>
      if sct.minute < m then some sct.hour
      else if sct.hour = 23 then some 0
      else some (sct.hour + 1)

/-- Cron._get_next_minute: the next minute the cron will run.
Zero for a wildcard minute field, else the concrete minute. -/
def get_next_minute (minute : SField) : Nat :=
  match minute with
  | SField.wild => 0
  | SField.conc m => m

/-- Cron._get_next_day: today or tomorrow, from an hour and minute
value. The wildcard test on the hour comes first; then a concrete hour
below the current hour is tomorrow; an hour equal to the current hour
compares the minute against the current minute (a wildcard minute
there would raise a TypeError, modelled as none; the Python
conjunction short-circuits, so the minute is only examined when the
hours are equal); every other case is today. -/
def get_next_day (sct : SimTime) (hour minute : SField) : Option Day :=
  match hour with
  | SField.wild =>
    if sct.hour = 23 then some Day.tomorrow else some Day.today
  | SField.conc h =>
    if h < sct.hour then some Day.tomorrow
    else if h = sct.hour then
      match minute with
      | SField.conc m =>
        if m < sct.minute then some Day.tomorrow else some Day.today
      | SField.wild => none
    else some Day.today

/-- Cron._print_runtime without the printing: the value whose fields
it formats. When the entry runs now the result is the current time and
today; otherwise the hour and minute are resolved first and the day is
computed from those resolved integers (the source passes the resolved
values, not the raw fields, to _get_next_day). A TypeError anywhere
propagates as none. -/
def evaluate (sct : SimTime) (line : Entry) : Option RunTimeResult :=
  if run_now sct line then
    some ⟨sct.hour, sct.minute, Day.today, line.command⟩
  else
    match get_next_hour sct line.hour line.minute with
    | none => none
    | some hour =>
      match get_next_day sct (SField.conc hour)
          (SField.conc (get_next_minute line.minute)) with
      | none => none
      | some day =>
        some ⟨hour, get_next_minute line.minute, day, line.command⟩

/-- The day string printed by Cron._print_runtime. -/
def Day.str : Day → String
  | Day.today => "today"
  | Day.tomorrow => "tomorrow"

/-- Zero-padding of the minute to two digits, as the Python format
spec 0>2d does for values below 100. -/
def pad2 (n : Nat) : String :=
  if n < 10 then "0" ++ toString n else toString n

/-- The line printed by Cron._print_runtime for one result: the hour,
a colon, the zero-padded minute, the day word and the command,
space-separated. -/
def format_runtime (r : RunTimeResult) : String :=
  toString r.hour ++ ":" ++ pad2 r.minute ++ " " ++ r.day.str ++ " " ++ r.command

/-- Validity of the simulated current time, as enforced by
Config._parse_sct before the evaluator runs. -/
def SimTime.valid (t : SimTime) : Bool :=
  decide (t.hour ≤ 23) && decide (t.minute ≤ 59)

/-- Range check of one schedule field: a wildcard is always in range,
a concrete value must not exceed the bound. -/
def SField.inRange (f : SField) (maxv : Nat) : Bool :=
  match f with
  | SField.wild => true
  | SField.conc n => decide (n ≤ maxv)

/-- Well-formedness of an entry, as enforced by
Config._parse_stdin_line: hour in 0..23, minute in 0..59 when
concrete. -/
def Entry.wf (e : Entry) : Bool :=
  e.hour.inRange 23 && e.minute.inRange 59

/-- Whether a schedule field matches a concrete value: the wildcard
matches everything, a concrete field only its own value. -/
def fieldMatches (f : SField) (v : Nat) : Bool :=
  match f with
  | SField.wild => true
  | SField.conc n => decide (n = v)

/-- Lexicographic order on (day, hour, minute) triples, with day 0
standing for today and day 1 for tomorrow. -/
def timeLe (d₁ h₁ m₁ d₂ h₂ m₂ : Nat) : Prop :=
  d₁ < d₂ ∨ (d₁ = d₂ ∧ (h₁ < h₂ ∨ (h₁ = h₂ ∧ m₁ ≤ m₂)))

instance (d₁ h₁ m₁ d₂ h₂ m₂ : Nat) : Decidable (timeLe d₁ h₁ m₁ d₂ h₂ m₂) := by
  unfold timeLe; infer_instance

/-- Outcome of parsing one stdin config line: a parsed entry, a
diagnostic print followed by sys.exit with a code, or an uncaught
IndexError from indexing a missing field. -/
inductive ParseResult (α : Type) where
  | ok : α → ParseResult α
  | exitWith : Nat → String → ParseResult α
  | indexError : ParseResult α
deriving DecidableEq, Repr

/-- Splitting a character list at every occurrence of a separator,
keeping empty pieces, as the Python str.split with an explicit single
separator does. -/
def splitChar (sep : Char) : List Char → List (List Char)
  | [] => [[]]
  | c :: rest =>
    let r := splitChar sep rest
    if c = sep then [] :: r
    else (c :: r.headD []) :: r.tail

/-- Python str.split with the single-space separator, over strings. -/
def pySplit (s : String) : List String :=
  (splitChar ' ' s.data).map (fun l => ⟨l⟩)

/-- Value of a decimal digit character, none for a non-digit. -/
def digitVal (c : Char) : Option Nat :=
  if c.isDigit then some (c.toNat - 48) else none

/-- Accumulating decimal evaluation of a digit list; none as soon as
a non-digit appears. -/
def digitsAux : List Char → Nat → Option Nat
  | [], acc => some acc
  | c :: rest, acc =>
    match digitVal c with
    | none => none
    | some d => digitsAux rest (acc * 10 + d)

/-- A nonempty all-digit list read as a decimal number. -/
def digitsToNat (l : List Char) : Option Nat :=
  match l with
  | [] => none
  | _ => digitsAux l 0

/-- Python int() on a token: an optional sign followed by decimal
digits. The tokens here come from a space split, so the surrounding
whitespace Python would strip never occurs; digit-group underscores,
which Python would accept, are not modelled and no claim exercises
them. -/
def pyInt? (s : String) : Option Int :=
  match s.data with
  | '-' :: rest => (digitsToNat rest).map (fun n => -(n : Int))
  | '+' :: rest => (digitsToNat rest).map (fun n => (n : Int))
  | l => (digitsToNat l).map (fun n => (n : Int))

/-- Config._parse_int together with the field handling in
Config._parse_stdin_line, for one field: the wildcard marker parses to
the wildcard; otherwise the token must parse as an integer (exiting
with parseCode and the int diagnostic on failure) and lie in 0..maxv
(exiting with rangeCode and the range diagnostic on failure). The
range diagnostic embeds rangeShown, because the source formats spl[0]
into both the minute and the hour message. Python int() is modelled by
pyInt? above. -/
def parseField (tok : String) (maxv : Int) (parseCode : Nat) (intDebug : String)
    (rangeCode : Nat) (rangeName : String) (rangeShown : Int → String) :
    ParseResult SField :=
  if tok = "*" then ParseResult.ok SField.wild
  else
    match pyInt? tok with
    | none =>
      ParseResult.exitWith parseCode
        ("could not parse integer - invalid input: " ++ intDebug)
    | some n =>
      if n < 0 ∨ n > maxv then
        ParseResult.exitWith rangeCode
          ("could not parse " ++ rangeName ++ " column - " ++ rangeShown n ++
            " out of range")
      else ParseResult.ok (SField.conc n.toNat)

/-- How a parsed field prints in a Python format call: the wildcard
marker as is, a concrete value as its decimal digits. -/
def sfieldShown : SField → String
  | SField.wild => "*"
  | SField.conc n => toString n

/-- Config._parse_stdin_line: split the line on single spaces, reject
an empty line with exit code 12, parse and range-check the minute
token (exit 7 or 10), then the hour token (exit 8 or 11), and take the
third token as the command. Indexing a token that is not there (a line
with fewer than three fields) raises IndexError. The hour range
message formats spl[0], the minute value, as the source does. -/
def parse_stdin_line (config_line : String) : ParseResult Entry :=
  let spl := pySplit config_line
  if config_line = "" then ParseResult.exitWith 12 "empty config line"
  else
    match spl[0]? with
    | none => ParseResult.indexError
    | some s0 =>
      match parseField s0 59 7 ("minute column " ++ config_line) 10 "minute"
          (fun n => toString n) with
      | ParseResult.exitWith c m => ParseResult.exitWith c m
      | ParseResult.indexError => ParseResult.indexError
      | ParseResult.ok fmin =>
        match spl[1]? with
        | none => ParseResult.indexError
        | some s1 =>
          match parseField s1 23 8 ("hour column " ++ config_line) 11 "hour"
              (fun _ => sfieldShown fmin) with
          | ParseResult.exitWith c m => ParseResult.exitWith c m
          | ParseResult.indexError => ParseResult.indexError
          | ParseResult.ok fhour =>
            match spl[2]? with
            | none => ParseResult.indexError
            | some s2 => ParseResult.ok ⟨fmin, fhour, s2⟩

/-! ### Helper lemmas: case analysis of run_now and evaluate -/

/-- The immediate-run test succeeds exactly when each field is the
wildcard or equals the corresponding current value. -/
theorem run_now_iff (sct : SimTime) (line : Entry) :
    run_now sct line = true ↔
      (line.hour = SField.wild ∨ line.hour = SField.conc sct.hour) ∧
      (line.minute = SField.wild ∨ line.minute = SField.conc sct.minute) := by
  unfold run_now
  split_ifs with h1 h2 <;> simp_all <;> tauto

/-- When the entry runs now, evaluate returns the current time and
today. -/
theorem evaluate_of_run_now (sct : SimTime) (line : Entry)
    (h : run_now sct line = true) :
    evaluate sct line = some ⟨sct.hour, sct.minute, Day.today, line.command⟩ := by
  simp [evaluate, h]

/-- Evaluation of an entry with concrete hour and minute fields not
both equal to the current time. -/
theorem evaluate_conc_conc (sct : SimTime) (m h : Nat) (c : String)
    (hne : ¬(h = sct.hour ∧ m = sct.minute)) :
    evaluate sct ⟨SField.conc m, SField.conc h, c⟩ =
      some ⟨h, m,
        if h < sct.hour then Day.tomorrow
        else if h = sct.hour then
          (if m < sct.minute then Day.tomorrow else Day.today)
        else Day.today, c⟩ := by
  have hrn : run_now sct ⟨SField.conc m, SField.conc h, c⟩ = false := by
    rw [Bool.eq_false_iff]
    intro hr
    rw [run_now_iff] at hr
    simp at hr
    exact hne hr
  simp only [evaluate, hrn, Bool.false_eq_true, if_false, get_next_hour,
    get_next_minute, get_next_day]
  split_ifs <;> rfl

/-- Evaluation of an entry with a concrete hour field different from
the current hour and a wildcard minute field. -/
theorem evaluate_conc_wild (sct : SimTime) (h : Nat) (c : String)
    (hne : h ≠ sct.hour) :
    evaluate sct ⟨SField.wild, SField.conc h, c⟩ =
      some ⟨h, 0, if h < sct.hour then Day.tomorrow else Day.today, c⟩ := by
  have hrn : run_now sct ⟨SField.wild, SField.conc h, c⟩ = false := by
    rw [Bool.eq_false_iff]
    intro hr
    rw [run_now_iff] at hr
    simp at hr
    exact hne hr
  simp only [evaluate, hrn, Bool.false_eq_true, if_false, get_next_hour,
    get_next_minute, get_next_day]
  split_ifs with h1 h2 <;> first | rfl | exact absurd h2 hne

/-- An entry with a wildcard hour and a concrete minute different
from the current minute does not run now. -/
theorem run_now_wild_conc_ne (sct : SimTime) (m : Nat) (c : String)
    (hne : m ≠ sct.minute) :
    run_now sct ⟨SField.conc m, SField.wild, c⟩ = false := by
  rw [Bool.eq_false_iff]
  intro hr
  rw [run_now_iff] at hr
  obtain ⟨-, hm⟩ := hr
  rcases hm with hm | hm
  · exact SField.noConfusion hm
  · injection hm with hm
    exact hne hm

/-- Evaluation of an entry with a wildcard hour field and a concrete
minute field still ahead in the current hour. -/
theorem evaluate_wild_conc_lt (sct : SimTime) (m : Nat) (c : String)
    (hlt : sct.minute < m) :
    evaluate sct ⟨SField.conc m, SField.wild, c⟩ =
      some ⟨sct.hour, m, Day.today, c⟩ := by
  have hrn := run_now_wild_conc_ne sct m c (by omega)
  have gh : get_next_hour sct SField.wild (SField.conc m) = some sct.hour := by
    simp [get_next_hour, hlt]
  have gd : get_next_day sct (SField.conc sct.hour) (SField.conc m) =
      some Day.today := by
    have h1 : ¬(sct.hour < sct.hour) := by omega
    have h2 : ¬(m < sct.minute) := by omega
    simp [get_next_day, h1, h2]
  simp [evaluate, hrn, gh, get_next_minute, gd]

/-- Evaluation of an entry with a wildcard hour field, not at hour 23,
whose concrete minute field has already passed in the current hour:
the run moves to the next hour, today. -/
theorem evaluate_wild_conc_ge (sct : SimTime) (m : Nat) (c : String)
    (hgt : m < sct.minute) (h23 : sct.hour ≠ 23) :
    evaluate sct ⟨SField.conc m, SField.wild, c⟩ =
      some ⟨sct.hour + 1, m, Day.today, c⟩ := by
  have hrn := run_now_wild_conc_ne sct m c (by omega)
  have gh : get_next_hour sct SField.wild (SField.conc m) =
      some (sct.hour + 1) := by
    have h1 : ¬(sct.minute < m) := by omega
    simp [get_next_hour, h1, h23]
  have gd : get_next_day sct (SField.conc (sct.hour + 1)) (SField.conc m) =
      some Day.today := by
    have h1 : ¬(sct.hour + 1 < sct.hour) := by omega
    have h2 : ¬(sct.hour + 1 = sct.hour) := by omega
    simp [get_next_day, h1, h2]
  simp [evaluate, hrn, gh, get_next_minute, gd]

/-- Evaluation of an entry with a wildcard hour field, at hour 23,
whose concrete minute field has already passed in the current hour:
the run wraps to hour 0 tomorrow. -/
theorem evaluate_wild_conc_ge23 (sct : SimTime) (m : Nat) (c : String)
    (hgt : m < sct.minute) (h23 : sct.hour = 23) :
    evaluate sct ⟨SField.conc m, SField.wild, c⟩ =
      some ⟨0, m, Day.tomorrow, c⟩ := by
  have hrn := run_now_wild_conc_ne sct m c (by omega)
  have gh : get_next_hour sct SField.wild (SField.conc m) = some 0 := by
    have h1 : ¬(sct.minute < m) := by omega
    simp [get_next_hour, h1, h23]
  have gd : get_next_day sct (SField.conc 0) (SField.conc m) =
      some Day.tomorrow := by
    have h1 : 0 < sct.hour := by omega
    simp [get_next_day, h1]
  simp [evaluate, hrn, gh, get_next_minute, gd]

/-! ### Further run_now shapes -/

/-- An entry whose two fields are both wildcards runs now. -/
theorem run_now_wild_wild (sct : SimTime) (c : String) :
    run_now sct ⟨SField.wild, SField.wild, c⟩ = true := by
  rw [run_now_iff]
  exact ⟨Or.inl rfl, Or.inl rfl⟩

/-- An entry whose minute equals the current minute and whose hour is
the wildcard runs now. -/
theorem run_now_conc_min_wild (sct : SimTime) (c : String) :
    run_now sct ⟨SField.conc sct.minute, SField.wild, c⟩ = true := by
  rw [run_now_iff]
  exact ⟨Or.inl rfl, Or.inr rfl⟩

/-- An entry whose hour equals the current hour and whose minute is
the wildcard runs now. -/
theorem run_now_wild_min_conc (sct : SimTime) (c : String) :
    run_now sct ⟨SField.wild, SField.conc sct.hour, c⟩ = true := by
  rw [run_now_iff]
  exact ⟨Or.inr rfl, Or.inl rfl⟩

/-- An entry whose fields both equal the current time runs now. -/
theorem run_now_conc_conc_eq (sct : SimTime) (c : String) :
    run_now sct ⟨SField.conc sct.minute, SField.conc sct.hour, c⟩ = true := by
  rw [run_now_iff]
  exact ⟨Or.inr rfl, Or.inr rfl⟩

/-! ### Claims -/

/-- C2: for every valid SimulatedTime T and entry E, the entry fires
immediately (run_now) iff the hour field equals the current hour or is
the wildcard, and the minute field equals the current minute or is the
wildcard; in that case evaluate returns exactly the current hour and
minute, today, with the entry command. -/
theorem C2_immediate_fire (sct : SimTime) (line : Entry)
    (hT : sct.valid = true) (hE : line.wf = true) :
    (run_now sct line = true ↔
      (line.hour = SField.wild ∨ line.hour = SField.conc sct.hour) ∧
      (line.minute = SField.wild ∨ line.minute = SField.conc sct.minute)) ∧
    (run_now sct line = true →
      evaluate sct line = some ⟨sct.hour, sct.minute, Day.today, line.command⟩) :=
  ⟨run_now_iff sct line, fun h => evaluate_of_run_now sct line h⟩

/-- Witness for C2 at T = 3:04 and the entry star-hour 3. -/
theorem C2_immediate_fire_witness :
    evaluate ⟨3, 4⟩ ⟨SField.wild, SField.conc 3, "c"⟩ =
      some ⟨3, 4, Day.today, "c"⟩ :=
  (C2_immediate_fire ⟨3, 4⟩ ⟨SField.wild, SField.conc 3, "c"⟩ (by decide)
    (by decide)).2 (by decide)

/-- C7: for every valid SimulatedTime and well-formed entry, evaluate
is total (always produces a result, no exceptional branch is taken),
and the integer comparison of the current minute against the entry
minute in hour resolution is only ever reached with a concrete entry
minute: an entry that does not run now and has a wildcard hour
necessarily has a concrete minute field. -/
theorem C7_total (sct : SimTime) (line : Entry)
    (hT : sct.valid = true) (hE : line.wf = true) :
    (∃ r, evaluate sct line = some r) ∧
    (run_now sct line = false → line.hour = SField.wild →
      ∃ m, line.minute = SField.conc m) := by
  constructor
  · obtain ⟨lm, lh, c⟩ := line
    rcases lh with _ | h
    · rcases lm with _ | m
      · exact ⟨_, evaluate_of_run_now sct _ (run_now_wild_wild sct c)⟩
      · rcases Nat.lt_trichotomy sct.minute m with hlt | heq | hgt
        · exact ⟨_, evaluate_wild_conc_lt sct m c hlt⟩
        · subst heq
          exact ⟨_, evaluate_of_run_now sct _ (run_now_conc_min_wild sct c)⟩
        · by_cases h23 : sct.hour = 23
          · exact ⟨_, evaluate_wild_conc_ge23 sct m c hgt h23⟩
          · exact ⟨_, evaluate_wild_conc_ge sct m c hgt h23⟩
    · rcases lm with _ | m
      · by_cases hh : h = sct.hour
        · subst hh
          exact ⟨_, evaluate_of_run_now sct _ (run_now_wild_min_conc sct c)⟩
        · exact ⟨_, evaluate_conc_wild sct h c hh⟩
      · by_cases hb : h = sct.hour ∧ m = sct.minute
        · obtain ⟨rfl, rfl⟩ := hb
          exact ⟨_, evaluate_of_run_now sct _ (run_now_conc_conc_eq sct c)⟩
        · exact ⟨_, evaluate_conc_conc sct m h c hb⟩
  · intro hrn hwild
    rcases hm : line.minute with _ | m
    · exfalso
      have : run_now sct line = true := by
        rw [run_now_iff]
        exact ⟨Or.inl hwild, Or.inl hm⟩
      rw [this] at hrn
      exact Bool.noConfusion hrn
    · exact ⟨m, rfl⟩

/-- Witness for C7 at T = 3:04 and the entry minute 5, star-hour. -/
theorem C7_total_witness :
    ∃ r, evaluate ⟨3, 4⟩ ⟨SField.conc 5, SField.wild, "c"⟩ = some r :=
  (C7_total ⟨3, 4⟩ ⟨SField.conc 5, SField.wild, "c"⟩ (by decide) (by decide)).1

/-- C6: for every valid SimulatedTime and well-formed entry, any
result of evaluate has hour at most 23 and minute at most 59; in
particular the wildcard-hour increment never yields 24. -/
theorem C6_result_in_range (sct : SimTime) (line : Entry)
    (hT : sct.valid = true) (hE : line.wf = true)
    (r : RunTimeResult) (hr : evaluate sct line = some r) :
    r.hour ≤ 23 ∧ r.minute ≤ 59 := by
  have hTb : sct.hour ≤ 23 ∧ sct.minute ≤ 59 := by
    simpa [SimTime.valid] using hT
  obtain ⟨lm, lh, c⟩ := line
  have hEb : lh.inRange 23 = true ∧ lm.inRange 59 = true := by
    simpa [Entry.wf] using hE
  rcases lh with _ | h
  · rcases lm with _ | m
    · rw [evaluate_of_run_now sct _ (run_now_wild_wild sct c)] at hr
      obtain rfl := Option.some.inj hr
      exact ⟨hTb.1, hTb.2⟩
    · have hm : m ≤ 59 := by simpa [SField.inRange] using hEb.2
      rcases Nat.lt_trichotomy sct.minute m with hlt | heq | hgt
      · rw [evaluate_wild_conc_lt sct m c hlt] at hr
        obtain rfl := Option.some.inj hr
        exact ⟨hTb.1, hm⟩
      · subst heq
        rw [evaluate_of_run_now sct _ (run_now_conc_min_wild sct c)] at hr
        obtain rfl := Option.some.inj hr
        exact ⟨hTb.1, hTb.2⟩
      · by_cases h23 : sct.hour = 23
        · rw [evaluate_wild_conc_ge23 sct m c hgt h23] at hr
          obtain rfl := Option.some.inj hr
          exact ⟨Nat.zero_le _, hm⟩
        · rw [evaluate_wild_conc_ge sct m c hgt h23] at hr
          obtain rfl := Option.some.inj hr
          refine ⟨?_, hm⟩
          show sct.hour + 1 ≤ 23
          omega
  · have hh : h ≤ 23 := by simpa [SField.inRange] using hEb.1
    rcases lm with _ | m
    · by_cases hhe : h = sct.hour
      · subst hhe
        rw [evaluate_of_run_now sct _ (run_now_wild_min_conc sct c)] at hr
        obtain rfl := Option.some.inj hr
        exact ⟨hTb.1, hTb.2⟩
      · rw [evaluate_conc_wild sct h c hhe] at hr
        obtain rfl := Option.some.inj hr
        exact ⟨hh, Nat.zero_le _⟩
    · have hm : m ≤ 59 := by simpa [SField.inRange] using hEb.2
      by_cases hb : h = sct.hour ∧ m = sct.minute
      · obtain ⟨rfl, rfl⟩ := hb
        rw [evaluate_of_run_now sct _ (run_now_conc_conc_eq sct c)] at hr
        obtain rfl := Option.some.inj hr
        exact ⟨hTb.1, hTb.2⟩
      · rw [evaluate_conc_conc sct m h c hb] at hr
        obtain rfl := Option.some.inj hr
        exact ⟨hh, hm⟩

/-- Witness for C6 at T = 23:30 and the entry minute 10, star-hour,
whose run wraps to hour 0 tomorrow. -/
theorem C6_result_in_range_witness :
    (⟨0, 10, Day.tomorrow, "c"⟩ : RunTimeResult).hour ≤ 23 ∧
    (⟨0, 10, Day.tomorrow, "c"⟩ : RunTimeResult).minute ≤ 59 :=
  C6_result_in_range ⟨23, 30⟩ ⟨SField.conc 10, SField.wild, "c"⟩ (by decide)
    (by decide) ⟨0, 10, Day.tomorrow, "c"⟩ (by decide)

/-- C4: for every valid SimulatedTime and well-formed entry not
firing immediately: a concrete hour field resolves to itself; a
wildcard hour field resolves to the current hour when the current
minute is strictly below the (necessarily concrete) entry minute and
otherwise to the current hour plus one, wrapping to 0 at hour 23; a
wildcard minute field resolves to 0 and a concrete one to itself. -/
theorem C4_resolution (sct : SimTime) (line : Entry)
    (hT : sct.valid = true) (hE : line.wf = true)
    (hnr : run_now sct line = false)
    (r : RunTimeResult) (hr : evaluate sct line = some r) :
    (∀ h, line.hour = SField.conc h → r.hour = h) ∧
    (line.hour = SField.wild → ∃ m, line.minute = SField.conc m ∧
      r.hour = (if sct.minute < m then sct.hour
        else if sct.hour = 23 then 0 else sct.hour + 1)) ∧
    (line.minute = SField.wild → r.minute = 0) ∧
    (∀ m, line.minute = SField.conc m → r.minute = m) := by
  obtain ⟨lm, lh, c⟩ := line
  rcases lh with _ | h
  · rcases lm with _ | m
    · rw [run_now_wild_wild sct c] at hnr
      exact Bool.noConfusion hnr
    · rcases Nat.lt_trichotomy sct.minute m with hlt | heq | hgt
      · rw [evaluate_wild_conc_lt sct m c hlt] at hr
        obtain rfl := Option.some.inj hr
        simp [hlt]
      · subst heq
        rw [run_now_conc_min_wild sct c] at hnr
        exact Bool.noConfusion hnr
      · by_cases h23 : sct.hour = 23
        · rw [evaluate_wild_conc_ge23 sct m c hgt h23] at hr
          obtain rfl := Option.some.inj hr
          have hnl : ¬(sct.minute < m) := by omega
          simp [hnl, h23]
        · rw [evaluate_wild_conc_ge sct m c hgt h23] at hr
          obtain rfl := Option.some.inj hr
          have hnl : ¬(sct.minute < m) := by omega
          simp [hnl, h23]
  · rcases lm with _ | m
    · by_cases hhe : h = sct.hour
      · subst hhe
        rw [run_now_wild_min_conc sct c] at hnr
        exact Bool.noConfusion hnr
      · rw [evaluate_conc_wild sct h c hhe] at hr
        obtain rfl := Option.some.inj hr
        simp
    · by_cases hb : h = sct.hour ∧ m = sct.minute
      · obtain ⟨rfl, rfl⟩ := hb
        rw [run_now_conc_conc_eq sct c] at hnr
        exact Bool.noConfusion hnr
      · rw [evaluate_conc_conc sct m h c hb] at hr
        obtain rfl := Option.some.inj hr
        simp

/-- Witness for C4 at T = 23:30 and the entry minute 10, star-hour:
the resolved hour satisfies the wildcard-hour clause. -/
theorem C4_resolution_witness :
    (⟨23, 30⟩ : SimTime).hour = 23 ∧
    (⟨0, 10, Day.tomorrow, "c"⟩ : RunTimeResult).hour = 0 ∧
    (⟨0, 10, Day.tomorrow, "c"⟩ : RunTimeResult).minute = 10 :=
  ⟨rfl,
   by
    have h := (C4_resolution ⟨23, 30⟩ ⟨SField.conc 10, SField.wild, "c"⟩
      (by decide) (by decide) (by decide) ⟨0, 10, Day.tomorrow, "c"⟩
      (by decide)).2.1 rfl
    obtain ⟨m, hm, hv⟩ := h
    obtain rfl : m = 10 := by
      injection hm with hmm
      exact hmm.symm
    exact hv,
   (C4_resolution ⟨23, 30⟩ ⟨SField.conc 10, SField.wild, "c"⟩
      (by decide) (by decide) (by decide) ⟨0, 10, Day.tomorrow, "c"⟩
      (by decide)).2.2.2 10 rfl⟩

/-- C10: for every valid SimulatedTime and well-formed entry not
firing immediately, the day offset is computed from the resolved
integer hour and minute (never from the wildcard marker): it is
tomorrow exactly when the resolved hour is below the current hour, or
equals it with the resolved minute below the current minute; and
feeding the resolved integers back through the day-resolution
function reproduces the result day through its concrete branch. -/
theorem C10_day_from_resolved (sct : SimTime) (line : Entry)
    (hT : sct.valid = true) (hE : line.wf = true)
    (hnr : run_now sct line = false)
    (r : RunTimeResult) (hr : evaluate sct line = some r) :
    (r.day = Day.tomorrow ↔
      (r.hour < sct.hour ∨ (r.hour = sct.hour ∧ r.minute < sct.minute))) ∧
    get_next_day sct (SField.conc r.hour) (SField.conc r.minute) =
      some r.day := by
  obtain ⟨lm, lh, c⟩ := line
  rcases lh with _ | h
  · rcases lm with _ | m
    · rw [run_now_wild_wild sct c] at hnr
      exact Bool.noConfusion hnr
    · rcases Nat.lt_trichotomy sct.minute m with hlt | heq | hgt
      · rw [evaluate_wild_conc_lt sct m c hlt] at hr
        obtain rfl := Option.some.inj hr
        have h1 : ¬(sct.hour < sct.hour) := by omega
        have h2 : ¬(m < sct.minute) := by omega
        constructor
        · simp
          omega
        · simp [get_next_day, h1, h2]
      · subst heq
        rw [run_now_conc_min_wild sct c] at hnr
        exact Bool.noConfusion hnr
      · by_cases h23 : sct.hour = 23
        · rw [evaluate_wild_conc_ge23 sct m c hgt h23] at hr
          obtain rfl := Option.some.inj hr
          have h1 : (0 : Nat) < sct.hour := by omega
          constructor
          · simp
            omega
          · simp [get_next_day, h1]
        · rw [evaluate_wild_conc_ge sct m c hgt h23] at hr
          obtain rfl := Option.some.inj hr
          have h1 : ¬(sct.hour + 1 < sct.hour) := by omega
          have h2 : ¬(sct.hour + 1 = sct.hour) := by omega
          constructor
          · simp
          · simp [get_next_day, h1, h2]
  · rcases lm with _ | m
    · by_cases hhe : h = sct.hour
      · subst hhe
        rw [run_now_wild_min_conc sct c] at hnr
        exact Bool.noConfusion hnr
      · rw [evaluate_conc_wild sct h c hhe] at hr
        obtain rfl := Option.some.inj hr
        by_cases hlt : h < sct.hour
        · constructor
          · simp [hlt]
          · simp [get_next_day, hlt]
        · constructor
          · simp [hlt]
            omega
          · simp [get_next_day, hlt, hhe]
    · by_cases hb : h = sct.hour ∧ m = sct.minute
      · obtain ⟨rfl, rfl⟩ := hb
        rw [run_now_conc_conc_eq sct c] at hnr
        exact Bool.noConfusion hnr
      · rw [evaluate_conc_conc sct m h c hb] at hr
        obtain rfl := Option.some.inj hr
        by_cases hlt : h < sct.hour
        · constructor
          · simp [hlt]
          · simp [get_next_day, hlt]
        · by_cases hhe : h = sct.hour
          · subst hhe
            have hmne : m ≠ sct.minute := fun hc => hb ⟨rfl, hc⟩
            by_cases hml : m < sct.minute
            · constructor
              · simp [hlt, hml]
              · simp [get_next_day, hlt, hml]
            · constructor
              · simp [hlt, hml]
              · simp [get_next_day, hlt, hml]
          · constructor
            · simp [hlt, hhe]
            · simp [get_next_day, hlt, hhe]

/-- C3 counterexample: at T = 23:10 the star-hour entry with minute 20
does not fire immediately, the current hour is 23, yet the result day
is today (the next run, 23:20, is still today), refuting the claim
that a non-firing wildcard-hour entry lands tomorrow whenever the
current hour is 23. -/
theorem C3_counterexample :
    (⟨23, 10⟩ : SimTime).hour = 23 ∧
    run_now ⟨23, 10⟩ ⟨SField.conc 20, SField.wild, "c"⟩ = false ∧
    evaluate ⟨23, 10⟩ ⟨SField.conc 20, SField.wild, "c"⟩ =
      some ⟨23, 20, Day.today, "c"⟩ := by
  decide

/-- C3 amended: for every valid SimulatedTime and well-formed entry
with a wildcard hour field that does not fire immediately, the entry
minute is some concrete m and the result day is tomorrow exactly when
the current hour is 23 and m has already passed (m below the current
minute); otherwise the result day is today. -/
theorem C3_amended_wildcard_day (sct : SimTime) (line : Entry)
    (hT : sct.valid = true) (hE : line.wf = true)
    (hw : line.hour = SField.wild) (hnr : run_now sct line = false)
    (r : RunTimeResult) (hr : evaluate sct line = some r) :
    ∃ m, line.minute = SField.conc m ∧
      (r.day = Day.tomorrow ↔ (sct.hour = 23 ∧ m < sct.minute)) := by
  obtain ⟨lm, lh, c⟩ := line
  cases hw
  rcases lm with _ | m
  · rw [run_now_wild_wild sct c] at hnr
    exact Bool.noConfusion hnr
  · refine ⟨m, rfl, ?_⟩
    rcases Nat.lt_trichotomy sct.minute m with hlt | heq | hgt
    · rw [evaluate_wild_conc_lt sct m c hlt] at hr
      obtain rfl := Option.some.inj hr
      simp
      omega
    · subst heq
      rw [run_now_conc_min_wild sct c] at hnr
      exact Bool.noConfusion hnr
    · by_cases h23 : sct.hour = 23
      · rw [evaluate_wild_conc_ge23 sct m c hgt h23] at hr
        obtain rfl := Option.some.inj hr
        simp [h23]
        omega
      · rw [evaluate_wild_conc_ge sct m c hgt h23] at hr
        obtain rfl := Option.some.inj hr
        simp [h23]

/-- Witness for the amended C3 at T = 23:30 and the star-hour entry
with minute 10, whose run lands tomorrow. -/
theorem C3_amended_wildcard_day_witness :
    ∃ m, (⟨SField.conc 10, SField.wild, "c"⟩ : Entry).minute = SField.conc m ∧
      ((⟨0, 10, Day.tomorrow, "c"⟩ : RunTimeResult).day = Day.tomorrow ↔
        ((⟨23, 30⟩ : SimTime).hour = 23 ∧ m < (⟨23, 30⟩ : SimTime).minute)) :=
  C3_amended_wildcard_day ⟨23, 30⟩ ⟨SField.conc 10, SField.wild, "c"⟩
    (by decide) (by decide) rfl (by decide) ⟨0, 10, Day.tomorrow, "c"⟩ (by decide)

/-- C5 counterexample: at T = 10:30 the star-hour entry with minute 30
fires immediately: the result is exactly the current time, today, so
its hour does equal the current hour, refuting the claim that
evaluation advances such an entry to the next hour. -/
theorem C5_counterexample :
    evaluate ⟨10, 30⟩ ⟨SField.conc 30, SField.wild, "c"⟩ =
      some ⟨10, 30, Day.today, "c"⟩ ∧
    (⟨10, 30, Day.today, "c"⟩ : RunTimeResult).hour = (⟨10, 30⟩ : SimTime).hour := by
  decide

/-- C5 amended: with a wildcard hour field and a concrete minute equal
to the current minute, the bare hour-resolution step does treat the
minute as already passed and advances to the next hour (never
returning the current hour); but at the evaluation level such an entry
fires immediately, because the immediate-fire test runs first, so the
returned result is the current time today. -/
theorem C5_equal_minute_policy (sct : SimTime) (line : Entry)
    (hT : sct.valid = true) (hE : line.wf = true)
    (hh : line.hour = SField.wild)
    (hm : line.minute = SField.conc sct.minute) :
    get_next_hour sct line.hour line.minute =
      some (if sct.hour = 23 then 0 else sct.hour + 1) ∧
    get_next_hour sct line.hour line.minute ≠ some sct.hour ∧
    run_now sct line = true ∧
    evaluate sct line = some ⟨sct.hour, sct.minute, Day.today, line.command⟩ := by
  have hrn : run_now sct line = true := by
    rw [run_now_iff]
    exact ⟨Or.inl hh, Or.inr hm⟩
  have hgh : get_next_hour sct line.hour line.minute =
      some (if sct.hour = 23 then 0 else sct.hour + 1) := by
    rw [hh, hm]
    have h1 : ¬(sct.minute < sct.minute) := by omega
    simp only [get_next_hour, h1, if_false]
    split_ifs <;> rfl
  refine ⟨hgh, ?_, hrn, evaluate_of_run_now sct line hrn⟩
  rw [hgh]
  intro hc
  obtain hc := Option.some.inj hc
  by_cases h23 : sct.hour = 23
  · rw [if_pos h23] at hc
    omega
  · rw [if_neg h23] at hc
    omega

/-- Witness for the amended C5 at T = 10:30 and the star-hour entry
with minute 30: the bare hour resolution yields hour 11. -/
theorem C5_equal_minute_policy_witness :
    get_next_hour ⟨10, 30⟩ SField.wild (SField.conc 30) = some 11 :=
  (C5_equal_minute_policy ⟨10, 30⟩ ⟨SField.conc 30, SField.wild, "c"⟩
    (by decide) (by decide) rfl rfl).1

/-- C1: for every valid SimulatedTime and well-formed entry, the
result of evaluate is the earliest (day, hour, minute) triple,
ordered lexicographically with today before tomorrow and starting
from (today, current hour, current minute) inclusive, whose hour and
minute are matched by the entry fields (a wildcard matching every
value, a concrete field only its own value): the result matches, is
not before the current instant, and is at or before every matching
in-range triple not before the current instant. -/
theorem C1_earliest_match (sct : SimTime) (line : Entry)
    (hT : sct.valid = true) (hE : line.wf = true)
    (r : RunTimeResult) (hr : evaluate sct line = some r) :
    fieldMatches line.hour r.hour = true ∧
    fieldMatches line.minute r.minute = true ∧
    timeLe 0 sct.hour sct.minute (Day.toNat r.day) r.hour r.minute ∧
    ∀ d h m : Nat, d ≤ 1 → h ≤ 23 → m ≤ 59 →
      fieldMatches line.hour h = true → fieldMatches line.minute m = true →
      timeLe 0 sct.hour sct.minute d h m →
      timeLe (Day.toNat r.day) r.hour r.minute d h m := by
  have hTb : sct.hour ≤ 23 ∧ sct.minute ≤ 59 := by
    simpa [SimTime.valid] using hT
  obtain ⟨lm, lh, c⟩ := line
  rcases lh with _ | h
  · rcases lm with _ | m
    · -- wildcard hour, wildcard minute: runs now
      rw [evaluate_of_run_now sct _ (run_now_wild_wild sct c)] at hr
      obtain rfl := Option.some.inj hr
      refine ⟨rfl, rfl, ?_, ?_⟩
      · show timeLe 0 sct.hour sct.minute 0 sct.hour sct.minute
        unfold timeLe
        omega
      · intro d h' m' hd hh' hm' hfh hfm hle
        exact hle
    · rcases Nat.lt_trichotomy sct.minute m with hlt | heq | hgt
      · -- wildcard hour, minute still ahead: current hour, today
        rw [evaluate_wild_conc_lt sct m c hlt] at hr
        obtain rfl := Option.some.inj hr
        refine ⟨rfl, by simp [fieldMatches], ?_, ?_⟩
        · show timeLe 0 sct.hour sct.minute 0 sct.hour m
          unfold timeLe
          omega
        · intro d h' m' hd hh' hm' hfh hfm hle
          have e2 : m = m' := by simpa [fieldMatches] using hfm
          subst e2
          show timeLe 0 sct.hour m d h' m
          unfold timeLe at hle ⊢
          omega
      · -- minute equal: runs now
        subst heq
        rw [evaluate_of_run_now sct _ (run_now_conc_min_wild sct c)] at hr
        obtain rfl := Option.some.inj hr
        refine ⟨rfl, by simp [fieldMatches], ?_, ?_⟩
        · show timeLe 0 sct.hour sct.minute 0 sct.hour sct.minute
          unfold timeLe
          omega
        · intro d h' m' hd hh' hm' hfh hfm hle
          exact hle
      · by_cases h23 : sct.hour = 23
        · -- wildcard hour at 23, minute passed: 0:m tomorrow
          rw [evaluate_wild_conc_ge23 sct m c hgt h23] at hr
          obtain rfl := Option.some.inj hr
          refine ⟨rfl, by simp [fieldMatches], ?_, ?_⟩
          · show timeLe 0 sct.hour sct.minute 1 0 m
            unfold timeLe
            omega
          · intro d h' m' hd hh' hm' hfh hfm hle
            have e2 : m = m' := by simpa [fieldMatches] using hfm
            subst e2
            show timeLe 1 0 m d h' m
            unfold timeLe at hle ⊢
            omega
        · -- wildcard hour below 23, minute passed: next hour, today
          rw [evaluate_wild_conc_ge sct m c hgt h23] at hr
          obtain rfl := Option.some.inj hr
          refine ⟨rfl, by simp [fieldMatches], ?_, ?_⟩
          · show timeLe 0 sct.hour sct.minute 0 (sct.hour + 1) m
            unfold timeLe
            omega
          · intro d h' m' hd hh' hm' hfh hfm hle
            have e2 : m = m' := by simpa [fieldMatches] using hfm
            subst e2
            show timeLe 0 (sct.hour + 1) m d h' m
            unfold timeLe at hle ⊢
            omega
  · rcases lm with _ | m
    · by_cases hhe : h = sct.hour
      · -- hour equal, wildcard minute: runs now
        subst hhe
        rw [evaluate_of_run_now sct _ (run_now_wild_min_conc sct c)] at hr
        obtain rfl := Option.some.inj hr
        refine ⟨by simp [fieldMatches], rfl, ?_, ?_⟩
        · show timeLe 0 sct.hour sct.minute 0 sct.hour sct.minute
          unfold timeLe
          omega
        · intro d h' m' hd hh' hm' hfh hfm hle
          exact hle
      · rw [evaluate_conc_wild sct h c hhe] at hr
        by_cases hlt : h < sct.hour
        · -- concrete hour already passed, wildcard minute: h:00 tomorrow
          rw [if_pos hlt] at hr
          obtain rfl := Option.some.inj hr
          refine ⟨by simp [fieldMatches], rfl, ?_, ?_⟩
          · show timeLe 0 sct.hour sct.minute 1 h 0
            unfold timeLe
            omega
          · intro d h' m' hd hh' hm' hfh hfm hle
            have e1 : h = h' := by simpa [fieldMatches] using hfh
            subst e1
            show timeLe 1 h 0 d h m'
            unfold timeLe at hle ⊢
            omega
        · -- concrete hour ahead, wildcard minute: h:00 today
          rw [if_neg hlt] at hr
          obtain rfl := Option.some.inj hr
          refine ⟨by simp [fieldMatches], rfl, ?_, ?_⟩
          · show timeLe 0 sct.hour sct.minute 0 h 0
            unfold timeLe
            omega
          · intro d h' m' hd hh' hm' hfh hfm hle
            have e1 : h = h' := by simpa [fieldMatches] using hfh
            subst e1
            show timeLe 0 h 0 d h m'
            unfold timeLe at hle ⊢
            omega
    · by_cases hb : h = sct.hour ∧ m = sct.minute
      · -- both fields equal the current time: runs now
        obtain ⟨rfl, rfl⟩ := hb
        rw [evaluate_of_run_now sct _ (run_now_conc_conc_eq sct c)] at hr
        obtain rfl := Option.some.inj hr
        refine ⟨by simp [fieldMatches], by simp [fieldMatches], ?_, ?_⟩
        · show timeLe 0 sct.hour sct.minute 0 sct.hour sct.minute
          unfold timeLe
          omega
        · intro d h' m' hd hh' hm' hfh hfm hle
          exact hle
      · rw [evaluate_conc_conc sct m h c hb] at hr
        by_cases hlt : h < sct.hour
        · -- hour already passed: h:m tomorrow
          rw [if_pos hlt] at hr
          obtain rfl := Option.some.inj hr
          refine ⟨by simp [fieldMatches], by simp [fieldMatches], ?_, ?_⟩
          · show timeLe 0 sct.hour sct.minute 1 h m
            unfold timeLe
            omega
          · intro d h' m' hd hh' hm' hfh hfm hle
            have e1 : h = h' := by simpa [fieldMatches] using hfh
            have e2 : m = m' := by simpa [fieldMatches] using hfm
            subst e1
            subst e2
            show timeLe 1 h m d h m
            unfold timeLe at hle ⊢
            omega
        · rw [if_neg hlt] at hr
          by_cases hhe : h = sct.hour
          · rw [if_pos hhe] at hr
            by_cases hml : m < sct.minute
            · -- hour equal, minute passed: h:m tomorrow
              rw [if_pos hml] at hr
              obtain rfl := Option.some.inj hr
              refine ⟨by simp [fieldMatches], by simp [fieldMatches], ?_, ?_⟩
              · show timeLe 0 sct.hour sct.minute 1 h m
                unfold timeLe
                omega
              · intro d h' m' hd hh' hm' hfh hfm hle
                have e1 : h = h' := by simpa [fieldMatches] using hfh
                have e2 : m = m' := by simpa [fieldMatches] using hfm
                subst e1
                subst e2
                show timeLe 1 h m d h m
                unfold timeLe at hle ⊢
                omega
            · -- hour equal, minute ahead: h:m today
              rw [if_neg hml] at hr
              obtain rfl := Option.some.inj hr
              refine ⟨by simp [fieldMatches], by simp [fieldMatches], ?_, ?_⟩
              · show timeLe 0 sct.hour sct.minute 0 h m
                unfold timeLe
                omega
              · intro d h' m' hd hh' hm' hfh hfm hle
                have e1 : h = h' := by simpa [fieldMatches] using hfh
                have e2 : m = m' := by simpa [fieldMatches] using hfm
                subst e1
                subst e2
                show timeLe 0 h m d h m
                unfold timeLe at hle ⊢
                omega
          · -- hour strictly ahead: h:m today
            rw [if_neg hhe] at hr
            obtain rfl := Option.some.inj hr
            refine ⟨by simp [fieldMatches], by simp [fieldMatches], ?_, ?_⟩
            · show timeLe 0 sct.hour sct.minute 0 h m
              unfold timeLe
              omega
            · intro d h' m' hd hh' hm' hfh hfm hle
              have e1 : h = h' := by simpa [fieldMatches] using hfh
              have e2 : m = m' := by simpa [fieldMatches] using hfm
              subst e1
              subst e2
              show timeLe 0 h m d h m
              unfold timeLe at hle ⊢
              omega

/-- Witness for C1 at T = 14:00 and the entry 30 9 (9:30 already
resolved for tomorrow): the result matches the fields and is not
before the current instant. -/
theorem C1_earliest_match_witness :
    fieldMatches (SField.conc 9) 9 = true ∧
    fieldMatches (SField.conc 30) 30 = true ∧
    timeLe 0 14 0 (Day.toNat Day.tomorrow) 9 30 :=
  ⟨(C1_earliest_match ⟨14, 0⟩ ⟨SField.conc 30, SField.conc 9, "c"⟩ (by decide)
      (by decide) ⟨9, 30, Day.tomorrow, "c"⟩ (by decide)).1,
   (C1_earliest_match ⟨14, 0⟩ ⟨SField.conc 30, SField.conc 9, "c"⟩ (by decide)
      (by decide) ⟨9, 30, Day.tomorrow, "c"⟩ (by decide)).2.1,
   (C1_earliest_match ⟨14, 0⟩ ⟨SField.conc 30, SField.conc 9, "c"⟩ (by decide)
      (by decide) ⟨9, 30, Day.tomorrow, "c"⟩ (by decide)).2.2.1⟩

/-- Evaluation carries the entry command through unchanged. -/
theorem evaluate_command (sct : SimTime) (line : Entry) (r : RunTimeResult)
    (h : evaluate sct line = some r) : r.command = line.command := by
  unfold evaluate at h
  split at h
  · obtain rfl := Option.some.inj h
    rfl
  · split at h
    · exact Option.noConfusion h
    · split at h
      · exact Option.noConfusion h
      · obtain rfl := Option.some.inj h
        rfl

/-- C8 counterexample: the line with command text containing a space
parses to the entry whose command is only the third space-separated
token, not the remainder of the line. -/
theorem C8_counterexample :
    parse_stdin_line "30 10 echo hello" =
      ParseResult.ok ⟨SField.conc 30, SField.conc 10, "echo"⟩ ∧
    "echo" ≠ "echo hello" := by
  decide

/-- C8 amended: every successfully parsed config line has as its
command exactly the third space-separated field of the line (text
after the third space is dropped), and that token is carried unchanged
into the formatted output line, as its final segment. -/
theorem C8_command_token (l : String) (e : Entry)
    (h : parse_stdin_line l = ParseResult.ok e) :
    (pySplit l)[2]? = some e.command ∧
    ∀ (sct : SimTime) (r : RunTimeResult), evaluate sct e = some r →
      format_runtime r =
        (toString r.hour ++ ":" ++ pad2 r.minute ++ " " ++ r.day.str ++ " ") ++
          e.command := by
  constructor
  · simp only [parse_stdin_line] at h
    split at h
    · exact ParseResult.noConfusion h
    · split at h
      · exact ParseResult.noConfusion h
      · split at h
        · exact ParseResult.noConfusion h
        · exact ParseResult.noConfusion h
        · split at h
          · exact ParseResult.noConfusion h
          · split at h
            · exact ParseResult.noConfusion h
            · exact ParseResult.noConfusion h
            · split at h
              · exact ParseResult.noConfusion h
              · rename_i s2 hs2
                obtain rfl := ParseResult.ok.inj h
                exact hs2
  · intro sct r hre
    unfold format_runtime
    rw [evaluate_command sct e r hre]

/-- Witness for the amended C8 on the line 1 2 c. -/
theorem C8_command_token_witness :
    (pySplit "1 2 c")[2]? =
      some (⟨SField.conc 1, SField.conc 2, "c"⟩ : Entry).command :=
  (C8_command_token "1 2 c" ⟨SField.conc 1, SField.conc 2, "c"⟩ (by decide)).1

/-- C9: a config line with an in-range minute and hour but no command
token makes the parser raise an uncaught IndexError (no diagnostic, no
dedicated exit code), while out-of-range concrete values are rejected
with their own diagnostics and exit codes 10 and 11: the graceful
rejection the claim requires for a missing command token does not
happen. -/
theorem C9_missing_command_uncaught :
    parse_stdin_line "30 10" = ParseResult.indexError ∧
    parse_stdin_line "99 10 x" =
      ParseResult.exitWith 10 "could not parse minute column - 99 out of range" ∧
    parse_stdin_line "5 99 x" =
      ParseResult.exitWith 11 "could not parse hour column - 5 out of range" := by
  decide

/-- Witness for C10 at T = 14:00 and the entry 30 9: the resolved
9:30 feeds back through day resolution to tomorrow. -/
theorem C10_day_from_resolved_witness :
    get_next_day ⟨14, 0⟩
      (SField.conc (⟨9, 30, Day.tomorrow, "c"⟩ : RunTimeResult).hour)
      (SField.conc (⟨9, 30, Day.tomorrow, "c"⟩ : RunTimeResult).minute) =
      some (⟨9, 30, Day.tomorrow, "c"⟩ : RunTimeResult).day :=
  (C10_day_from_resolved ⟨14, 0⟩ ⟨SField.conc 30, SField.conc 9, "c"⟩
    (by decide) (by decide) (by decide) ⟨9, 30, Day.tomorrow, "c"⟩ (by decide)).2
